import Mathlib

/-!
Verification of the WOL server's wake-dispatch logic.

The development shallowly embeds the Python source:
* `app/wol.py` — MAC normalization and magic-packet construction,
* `app/schemas.py` — the MAC validator shared by `WakeRequest` and `DeviceCreate`,
* `app/main.py` — the `/wake` endpoint loop, `parse_broadcasts`, the scheduled
  job body `_job`, `add_schedule` and `delete_device`,
* `app/database.py` — the record-store operations those endpoints use.

Network sends are abstracted by a boolean transport oracle (`send mac broadcast`);
everything else is translated directly from the source.
-/

namespace WOL

/-! ### app/wol.py -/

/-- Value of one hexadecimal digit, as recognised by Python's `bytes.fromhex`. -/
def hexVal (c : Char) : Option Nat :=
  if '0' ≤ c ∧ c ≤ '9' then some (c.toNat - 48)
  else if 'a' ≤ c ∧ c ≤ 'f' then some (c.toNat - 97 + 10)
  else if 'A' ≤ c ∧ c ≤ 'F' then some (c.toNat - 65 + 10)
  else none

/-- ASCII whitespace in the sense of CPython's `Py_ISSPACE` (the whitespace
`bytes.fromhex` skips between byte pairs, and the ASCII part of what
`str.strip()` removes). -/
def isPySpace (c : Char) : Bool :=
  c = ' ' || c = '\t' || c = '\n' || c = '\r' || c = '\x0b' || c = '\x0c'

/-- Python's `bytes.fromhex`: ASCII whitespace may separate byte pairs; each
byte is exactly two consecutive hex digits; anything else raises `ValueError`
(modelled as `none`). -/
def fromhexAux : List Char → Option (List Nat)
  | [] => some []
  | c :: rest =>
    match hexVal c with
    | some hi =>
      match rest with
      | [] => none
      | d :: rest2 =>
        match hexVal d with
        | some lo => (fromhexAux rest2).map (fun bs => (16 * hi + lo) :: bs)
        | none => none
    | none => if isPySpace c then fromhexAux rest else none

/-- The effect of `mac.replace(":", "").replace("-", "")` on the character list. -/
def stripSep (l : List Char) : List Char :=
  l.filter (fun c => !(c == ':' || c == '-'))

/-- `normalize_mac` from `app/wol.py`: strip `:` and `-`, then `bytes.fromhex`;
`none` models the `ValueError` raised by `bytes.fromhex`. -/
def normalize_mac (mac : String) : Option (List Nat) :=
  fromhexAux (stripSep mac.data)

/-- The payload built in `send_magic_packet`: `b"\xff" * 6 + mac_bytes * 16`. -/
def magicPacket (macBytes : List Nat) : List Nat :=
  List.replicate 6 255 ++ (List.replicate 16 macBytes).flatten

/-- `send_magic_packet` from `app/wol.py`, with the UDP transport abstracted by
the oracle `transportOk broadcast`.  A `ValueError` from `normalize_mac`
propagates before any socket is opened; a transport error is an exception from
`sendto`.  On success it returns the bytes put on the wire. -/
def send_magic_packet (transportOk : String → Bool) (mac broadcast : String) :
    Except String (List Nat) :=
  match normalize_mac mac with
  | none => .error "InvalidMAC"
  | some macBytes =>
    let packet := magicPacket macBytes
    if transportOk broadcast then .ok packet else .error broadcast

/-! ### Canonical-form predicates (from the claim's wording) -/

/-- The packet builder: the pure part of `send_magic_packet` (normalize the
MAC, then lay out the payload), before any socket I/O. -/
def buildPacket (mac : String) : Option (List Nat) :=
  (normalize_mac mac).map magicPacket

/-- A character is a hexadecimal digit (`0-9`, `a-f`, `A-F`). -/
def isHexDigit (c : Char) : Bool := (hexVal c).isSome

/-- Six byte-pairs separated by colons, with the per-digit class `hp`:
the common shape of the canonical MAC form and of `MAC_REGEX`. -/
def macShape (hp : Char → Bool) : List Char → Bool
  | [a, b, ':', c, d, ':', e, f, ':', g, h, ':', i, j, ':', k, l] =>
    hp a && hp b && hp c && hp d && hp e && hp f &&
    hp g && hp h && hp i && hp j && hp k && hp l
  | _ => false

/-- The claim's canonical MAC shape: six hex byte-pairs separated by colons. -/
def isCanonList (l : List Char) : Bool := macShape isHexDigit l

/-- Canonical form of a MAC string. -/
def isCanonicalMac (mac : String) : Bool := isCanonList mac.data

/-- Uppercase-canonical hex digit (`0-9`, `A-F`). -/
def isUpperHexDigit (c : Char) : Bool :=
  ('0' ≤ c && c ≤ '9') || ('A' ≤ c && c ≤ 'F')

/-- Canonical uppercase MAC shape: six uppercase hex byte-pairs with colons. -/
def isCanonUpperList (l : List Char) : Bool := macShape isUpperHexDigit l

/-- Spec-level reading of the text `bytes.fromhex` accepts: a sequence of
two-hex-digit byte pairs, with ASCII whitespace allowed between pairs (and
around them), and nothing else. -/
def hexPairsOk : List Char → Bool
  | [] => true
  | [c] => (hexVal c).isNone && isPySpace c
  | c :: d :: rest2 =>
    if (hexVal c).isSome then (hexVal d).isSome && hexPairsOk rest2
    else isPySpace c && hexPairsOk (d :: rest2)

/-! ### app/schemas.py -/

/-- Python `str.strip()` (restricted to ASCII whitespace): remove leading and
trailing whitespace. -/
def pyStrip (l : List Char) : List Char :=
  ((l.dropWhile isPySpace).reverse.dropWhile isPySpace).reverse

/-- Python `str.upper()` on ASCII text; `Char.toUpper` is exactly the ASCII
letter map `a-z → A-Z`, leaving everything else unchanged. -/
def pyUpper (l : List Char) : List Char :=
  l.map Char.toUpper

/-- The character class `[0-9A-Fa-f]` of `MAC_REGEX`. -/
def isHexClass (c : Char) : Bool :=
  ('0' ≤ c && c ≤ '9') || ('A' ≤ c && c ≤ 'F') || ('a' ≤ c && c ≤ 'f')

/-- The body of `MAC_REGEX`: `([0-9A-Fa-f]{2}:){5}[0-9A-Fa-f]{2}` matched
against the whole input. -/
def macPattern (l : List Char) : Bool := macShape isHexClass l

/-- `MAC_REGEX.match(value)` being truthy.  Python's `$` also matches just
before a final newline, so a trailing `'\n'` after the pattern is accepted. -/
def macRegexMatch (l : List Char) : Bool :=
  macPattern l ||
    (if l.getLast? = some '\n' then macPattern l.dropLast else false)

/-- The `validate_mac` field validator shared verbatim by `WakeRequest` and
`DeviceCreate` in `app/schemas.py`: `value = value.strip().upper()`, then
`MAC_REGEX.match(value)` or `ValueError` (modelled as `none`). -/
def validate_mac (s : String) : Option String :=
  let value := pyUpper (pyStrip s.data)
  if macRegexMatch value then some (String.mk value) else none

/-! ### app/main.py — on-demand wake -/

/-- `parse_broadcasts` from `app/main.py`.  The request field is `None`, a
single string, or a list of strings (Python keeps only truthy, i.e. non-empty,
elements of a list). -/
def parse_broadcasts (rawBroadcast : Option (String ⊕ List String))
    (defaults : List String) : List String :=
  match rawBroadcast with
  | none => defaults
  | some (.inl s) => [s]
  | some (.inr l) => l.filter (fun x => !(x == ""))

/-- One `send_magic_packet(mac, broadcast)` call under a transport oracle
`send mac broadcast`; `.error` models the raised exception. -/
def sendAttempt (send : String → String → Bool) (mac broadcast : String) :
    Except String Unit :=
  if send mac broadcast then .ok () else .error broadcast

/-- The loop body of the `/wake` endpoint (`app/main.py`, `wake`): iterate over
the broadcasts; on success append to `sent`; the first exception raises
`HTTPException(500)` out of the loop.  Returns the list of attempted targets
together with the outcome (`.ok sent` or `.error broadcast`). -/
def wakeLoop (send : String → String → Bool) (mac : String) :
    List String → List String × Except String (List String)
  | [] => ([], .ok [])
  | b :: rest =>
    match sendAttempt send mac b with
    | .ok _ =>
      let r := wakeLoop send mac rest
      (b :: r.1, r.2.map (fun sent => b :: sent))
    | .error e => ([b], .error e)

/-- The `/wake` endpoint: resolve the broadcast list, then run the send loop. -/
def wake (send : String → String → Bool) (mac : String)
    (rawBroadcast : Option (String ⊕ List String)) (defaults : List String) :
    List String × Except String (List String) :=
  wakeLoop send mac (parse_broadcasts rawBroadcast defaults)

/-! ### Record store (app/database.py) and scheduler state (app/main.py) -/

/-- A row of the `devices` table. -/
structure Device where
  name : String
  mac : String
  ip : Option String
  broadcasts : List String
  shutdownUrl : Option String
  createdAt : String
deriving DecidableEq, Repr

/-- A row of the `schedules` table.  `broadcasts` is the decoded JSON column
(`none` models SQL `NULL`). -/
structure Schedule where
  deviceId : Nat
  cronExpr : String
  broadcasts : Option (List String)
  enabled : Bool
  createdAt : String
deriving DecidableEq, Repr

/-- The SQLite record store: rows keyed by their `id` column, plus the
autoincrement counters. -/
structure DB where
  devices : List (Nat × Device)
  schedules : List (Nat × Schedule)
  nextDeviceId : Nat
  nextScheduleId : Nat
deriving DecidableEq, Repr

/-- `Database.get_device`: `SELECT * FROM devices WHERE id = ?`. -/
def getDevice (db : DB) (deviceId : Nat) : Option Device :=
  (db.devices.find? (fun p => p.1 == deviceId)).map Prod.snd

/-- `Database.list_schedule_ids_for_device`:
`SELECT id FROM schedules WHERE device_id = ?`. -/
def list_schedule_ids_for_device (db : DB) (deviceId : Nat) : List Nat :=
  (db.schedules.filter (fun p => p.2.deviceId == deviceId)).map Prod.fst

/-- `Database.delete_device`: delete the device's schedules, then the device;
returns whether the device row existed (`cursor.rowcount` of the device
delete being non-zero). -/
def dbDeleteDevice (db : DB) (deviceId : Nat) : DB × Bool :=
  let schedules' := db.schedules.filter (fun p => !(p.2.deviceId == deviceId))
  let existed := db.devices.any (fun p => p.1 == deviceId)
  let devices' := db.devices.filter (fun p => !(p.1 == deviceId))
  ({ db with devices := devices', schedules := schedules' }, existed)

/-- `Database.add_schedule`: insert an enabled schedule row, returning the new
row id. -/
def dbAddSchedule (db : DB) (deviceId : Nat) (cronExpr : String)
    (broadcastsJson : Option (List String)) (createdAt : String) : DB × Nat :=
  let sid := db.nextScheduleId
  ({ db with
      schedules := db.schedules ++
        [(sid, { deviceId := deviceId, cronExpr := cronExpr,
                 broadcasts := broadcastsJson, enabled := true,
                 createdAt := createdAt })],
      nextScheduleId := sid + 1 },
   sid)

/-- An APScheduler job armed for one schedule: the closure created by
`schedule_job(schedule_id, device_id, broadcasts)` plus its job-table id
`schedule-{id}`. -/
structure Job where
  scheduleId : Nat
  deviceId : Nat
  override : Option (List String)
deriving DecidableEq, Repr

/-- `scheduler.add_job(..., id=f"schedule-{id}", replace_existing=True)`:
insert, replacing any entry with the same schedule id. -/
def upsertJob (jobs : List Job) (j : Job) : List Job :=
  jobs.filter (fun x => !(x.scheduleId == j.scheduleId)) ++ [j]

/-- The pattern `if scheduler.get_job(job_id): scheduler.remove_job(job_id)`. -/
def removeJobIfPresent (jobs : List Job) (sid : Nat) : List Job :=
  if jobs.any (fun x => x.scheduleId == sid) then
    jobs.filter (fun x => !(x.scheduleId == sid))
  else jobs

/-- The application's mutable state: the record store and the scheduler's job
table. -/
structure AppState where
  db : DB
  jobs : List Job
deriving DecidableEq, Repr

/-- HTTP errors raised by the endpoints (`HTTPException`). -/
inductive HErr where
  | notFound (detail : String)
  | badRequest (detail : String)
deriving DecidableEq, Repr

/-! ### app/main.py — scheduled fires -/

/-- The broadcast selection in `_job`:
`selected = broadcasts if broadcasts else json.loads(device["broadcasts"])`.
Python truthiness: only a non-empty override list is used; `None` or `[]`
falls back to the device record. -/
def resolveBroadcasts (override : Option (List String))
    (deviceBroadcasts : List String) : List String :=
  match override with
  | some l => if l.isEmpty then deviceBroadcasts else l
  | none => deviceBroadcasts

/-- The per-target loop of `_job`: every send is wrapped in `try/except`, the
exception is logged and the loop continues.  Returns each attempted target
paired with its outcome. -/
def jobLoop (send : String → String → Bool) (mac : String) :
    List String → List (String × Bool)
  | [] => []
  | b :: rest =>
    match sendAttempt send mac b with
    | .ok _ => (b, true) :: jobLoop send mac rest
    | .error _ => (b, false) :: jobLoop send mac rest

/-- Observable outcome of one scheduled fire: whether the
`schedule_device_not_found` warning was logged, and the attempted sends. -/
structure FireOutcome where
  warnedMissing : Bool
  attempts : List (String × Bool)
deriving DecidableEq, Repr

/-- The closure `_job` built by `schedule_job` in `app/main.py`: look the
device up at fire time; if missing, log a warning and return; otherwise
resolve the broadcast list and send to each target, logging per-target
failures.  It returns normally in every case. -/
def _job (send : String → String → Bool) (db : DB) (j : Job) : FireOutcome :=
  match getDevice db j.deviceId with
  | none => { warnedMissing := true, attempts := [] }
  | some device =>
    let selected := resolveBroadcasts j.override device.broadcasts
    { warnedMissing := false, attempts := jobLoop send device.mac selected }

/-- One scheduled fire as the scheduler driver runs it: the job body executes
against the current state and the state (store and job table) is left as it
was — `_job` performs no store writes and no scheduler calls, and a cron job
stays armed after firing. -/
def scheduledFire (send : String → String → Bool) (st : AppState) (j : Job) :
    AppState × FireOutcome :=
  (st, _job send st.db j)

/-! ### app/main.py — schedule creation and device deletion -/

/-- The body of a `POST /schedules` request. -/
structure ScheduleCreate where
  deviceId : Nat
  cron : String
  broadcasts : Option (List String)
deriving DecidableEq, Repr

/-- The `add_schedule` endpoint, parameterized by the external cron parser
(`CronTrigger.from_crontab`, returning `none` on a parse exception) and the
request clock value.  Steps in source order: device lookup (404), cron parse
(400), persist, arm job. -/
def add_schedule {T : Type} (parseCron : String → Option T) (st : AppState)
    (now : String) (p : ScheduleCreate) : AppState × Except HErr Nat :=
  match getDevice st.db p.deviceId with
  | none => (st, .error (.notFound "Device not found"))
  | some _ =>
    match parseCron p.cron with
    | none => (st, .error (.badRequest "Invalid cron expression"))
    | some _ =>
      let broadcastsJson :=
        match p.broadcasts with
        | some l => if l.isEmpty then none else some l
        | none => none
      let r := dbAddSchedule st.db p.deviceId p.cron broadcastsJson now
      ({ db := r.1,
         jobs := upsertJob st.jobs
           { scheduleId := r.2, deviceId := p.deviceId, override := p.broadcasts } },
       .ok r.2)

/-- The `delete_device` endpoint: read the device's schedule ids, cascade the
store delete, 404 if the device row did not exist, else drop each schedule's
job-table entry. -/
def delete_device (st : AppState) (deviceId : Nat) : AppState × Except HErr Unit :=
  let sids := list_schedule_ids_for_device st.db deviceId
  let r := dbDeleteDevice st.db deviceId
  if !r.2 then ({ st with db := r.1 }, .error (.notFound "Device not found"))
  else ({ db := r.1, jobs := sids.foldl removeJobIfPresent st.jobs }, .ok ())

/-! ### Concrete fixtures used by witnesses -/

/-- A device row as `add_device` would store it. -/
def exDevice : Device :=
  { name := "pc", mac := "AA:BB:CC:DD:EE:FF", ip := none,
    broadcasts := ["10.0.0.255"], shutdownUrl := none, createdAt := "t0" }

/-- A schedule row owned by the given device. -/
def exSched (did : Nat) : Schedule :=
  { deviceId := did, cronExpr := "0 7 * * 1-5", broadcasts := none,
    enabled := true, createdAt := "t0" }

/-- A store with one device (id 1) owning two schedules (ids 1 and 2). -/
def exDB : DB :=
  { devices := [(1, exDevice)], schedules := [(1, exSched 1), (2, exSched 1)],
    nextDeviceId := 2, nextScheduleId := 3 }

/-- Application state with both schedules armed in the job table. -/
def exState : AppState :=
  { db := exDB,
    jobs := [{ scheduleId := 1, deviceId := 1, override := none },
             { scheduleId := 2, deviceId := 1, override := none }] }

/-- State whose job table references a device id absent from the store. -/
def exOrphanState : AppState :=
  { db := { devices := [], schedules := [], nextDeviceId := 1, nextScheduleId := 1 },
    jobs := [{ scheduleId := 1, deviceId := 5, override := none }] }

/-! ## Helper lemmas -/

theorem wakeLoop_ok_of_all (send : String → String → Bool) (mac : String) :
    ∀ bs : List String, (∀ b ∈ bs, send mac b = true) →
      wakeLoop send mac bs = (bs, .ok bs) := by
  intro bs h
  induction bs with
  | nil => rfl
  | cons b rest ih =>
    have hb : send mac b = true := h b (List.mem_cons_self b rest)
    have hr := ih (fun x hx => h x (List.mem_cons_of_mem b hx))
    simp [wakeLoop, sendAttempt, hb, hr, Except.map]

theorem wakeLoop_stops_at_first_failure (send : String → String → Bool)
    (mac : String) : ∀ (pre : List String) (b : String) (post : List String),
      (∀ x ∈ pre, send mac x = true) → send mac b = false →
      wakeLoop send mac (pre ++ b :: post) = (pre ++ [b], .error b) := by
  intro pre
  induction pre with
  | nil =>
    intro b post _ hb
    simp [wakeLoop, sendAttempt, hb]
  | cons x xs ih =>
    intro b post hall hb
    have hx : send mac x = true := hall x (List.mem_cons_self x xs)
    have hr := ih b post (fun y hy => hall y (List.mem_cons_of_mem x hy)) hb
    simp [wakeLoop, sendAttempt, hx, hr, Except.map]

theorem jobLoop_eq_map (send : String → String → Bool) (mac : String) :
    ∀ l : List String, jobLoop send mac l = l.map (fun b => (b, send mac b)) := by
  intro l
  induction l with
  | nil => rfl
  | cons b rest ih =>
    cases hb : send mac b with
    | true => simp [jobLoop, sendAttempt, hb, ih]
    | false => simp [jobLoop, sendAttempt, hb, ih]

theorem mem_removeJobIfPresent {jobs : List Job} {sid : Nat} {j : Job}
    (h : j ∈ removeJobIfPresent jobs sid) :
    j ∈ jobs ∧ (j.scheduleId == sid) = false := by
  unfold removeJobIfPresent at h
  split at h
  · have hm := List.mem_filter.mp h
    refine ⟨hm.1, ?_⟩
    simpa using hm.2
  · next hany =>
    refine ⟨h, ?_⟩
    simp [List.any_eq_true] at hany
    simpa using hany j h

theorem mem_foldl_removeJobIfPresent :
    ∀ (sids : List Nat) (jobs : List Job) (j : Job),
      j ∈ sids.foldl removeJobIfPresent jobs →
      j ∈ jobs ∧ ∀ sid ∈ sids, (j.scheduleId == sid) = false := by
  intro sids
  induction sids with
  | nil => intro jobs j h; exact ⟨h, by intro sid hsid; cases hsid⟩
  | cons s ss ih =>
    intro jobs j h
    have h2 := ih (removeJobIfPresent jobs s) j h
    have h3 := mem_removeJobIfPresent h2.1
    refine ⟨h3.1, ?_⟩
    intro sid hsid
    rcases List.mem_cons.mp hsid with rfl | hmem
    · exact h3.2
    · exact h2.2 sid hmem

/-! ## Character-level helper lemmas -/

theorem charLe_iff (a b : Char) : a ≤ b ↔ a.toNat ≤ b.toNat := by
  rw [Char.le_def, UInt32.le_def]
  exact BitVec.le_def

theorem charEq_iff (a b : Char) : a = b ↔ a.toNat = b.toNat := by
  constructor
  · intro h; rw [h]
  · intro h; exact Char.ext (UInt32.toNat.inj h)

theorem toNatLit_0 : ('0' : Char).toNat = 48 := rfl

theorem toNatLit_9 : ('9' : Char).toNat = 57 := rfl

theorem toNatLit_la : ('a' : Char).toNat = 97 := rfl

theorem toNatLit_lf : ('f' : Char).toNat = 102 := rfl

theorem toNatLit_A : ('A' : Char).toNat = 65 := rfl

theorem toNatLit_F : ('F' : Char).toNat = 70 := rfl

theorem toNatLit_colon : (':' : Char).toNat = 58 := rfl

theorem char_toNat_ofNat {n : Nat} (h : n < 55296) : (Char.ofNat n).toNat = n := by
  rw [Char.ofNat, dif_pos (Or.inl (by exact_mod_cast h))]
  rfl

theorem toUpper_toNat_lower {c : Char} (h1 : 97 ≤ c.toNat) (h2 : c.toNat ≤ 122) :
    (Char.toUpper c).toNat = c.toNat - 32 := by
  unfold Char.toUpper
  rw [if_pos ⟨h1, h2⟩]
  exact char_toNat_ofNat (by omega)

theorem toUpper_eq_self {c : Char} (h : ¬(97 ≤ c.toNat ∧ c.toNat ≤ 122)) :
    Char.toUpper c = c := by
  unfold Char.toUpper
  rw [if_neg h]

theorem toUpper_not_lower (c : Char) :
    ¬(97 ≤ (Char.toUpper c).toNat ∧ (Char.toUpper c).toNat ≤ 122) := by
  by_cases hl : 97 ≤ c.toNat ∧ c.toNat ≤ 122
  · rw [toUpper_toNat_lower hl.1 hl.2]
    obtain ⟨h1, h2⟩ := hl
    omega
  · rw [toUpper_eq_self hl]
    exact hl

theorem toUpper_eq_nonletter {c d : Char} (hd : d.toNat < 65)
    (h : Char.toUpper c = d) : c = d := by
  by_cases hl : 97 ≤ c.toNat ∧ c.toNat ≤ 122
  · have ht := toUpper_toNat_lower hl.1 hl.2
    rw [h] at ht
    obtain ⟨h1, h2⟩ := hl
    omega
  · rwa [toUpper_eq_self hl] at h

theorem isHexDigit_iff (c : Char) : isHexDigit c = true ↔
    (48 ≤ c.toNat ∧ c.toNat ≤ 57) ∨ (97 ≤ c.toNat ∧ c.toNat ≤ 102) ∨
      (65 ≤ c.toNat ∧ c.toNat ≤ 70) := by
  unfold isHexDigit hexVal
  split_ifs with h1 h2 h3
  · simp only [charLe_iff, toNatLit_0, toNatLit_9] at h1
    simp [h1]
  · simp only [charLe_iff, toNatLit_la, toNatLit_lf] at h2
    simp [h2]
  · simp only [charLe_iff, toNatLit_A, toNatLit_F] at h3
    simp [h3]
  · simp only [charLe_iff, toNatLit_0, toNatLit_9] at h1
    simp only [charLe_iff, toNatLit_la, toNatLit_lf] at h2
    simp only [charLe_iff, toNatLit_A, toNatLit_F] at h3
    simp only [Option.isSome_none, Bool.false_eq_true, false_iff]
    omega

theorem isHexClass_iff (c : Char) : isHexClass c = true ↔
    (48 ≤ c.toNat ∧ c.toNat ≤ 57) ∨ (65 ≤ c.toNat ∧ c.toNat ≤ 70) ∨
      (97 ≤ c.toNat ∧ c.toNat ≤ 102) := by
  unfold isHexClass
  simp only [Bool.or_eq_true, Bool.and_eq_true, decide_eq_true_eq, charLe_iff,
    toNatLit_0, toNatLit_9, toNatLit_A, toNatLit_F, toNatLit_la, toNatLit_lf]
  omega

theorem isUpperHexDigit_iff (c : Char) : isUpperHexDigit c = true ↔
    (48 ≤ c.toNat ∧ c.toNat ≤ 57) ∨ (65 ≤ c.toNat ∧ c.toNat ≤ 70) := by
  unfold isUpperHexDigit
  simp only [Bool.or_eq_true, Bool.and_eq_true, decide_eq_true_eq, charLe_iff,
    toNatLit_0, toNatLit_9, toNatLit_A, toNatLit_F]

theorem isHexClass_eq_isHexDigit (c : Char) : isHexClass c = isHexDigit c := by
  rw [Bool.eq_iff_iff, isHexClass_iff, isHexDigit_iff]
  omega

theorem isHexClass_toUpper (c : Char) : isHexClass (Char.toUpper c) = isHexClass c := by
  by_cases hl : 97 ≤ c.toNat ∧ c.toNat ≤ 122
  · rw [Bool.eq_iff_iff, isHexClass_iff, isHexClass_iff,
      toUpper_toNat_lower hl.1 hl.2]
    obtain ⟨h1, h2⟩ := hl
    omega
  · rw [toUpper_eq_self hl]

theorem isUpperHexDigit_of_hexClass_not_lower {c : Char} (h : isHexClass c = true)
    (hnl : ¬(97 ≤ c.toNat ∧ c.toNat ≤ 122)) : isUpperHexDigit c = true := by
  rw [isHexClass_iff] at h
  rw [isUpperHexDigit_iff]
  omega

theorem hexDigit_keep {c : Char} (h : isHexDigit c = true) :
    (!(c == ':' || c == '-')) = true := by
  have h1 : c ≠ ':' := by rintro rfl; exact absurd h (by decide)
  have h2 : c ≠ '-' := by rintro rfl; exact absurd h (by decide)
  simp [h1, h2]

theorem colon_dropped : (!((':' : Char) == ':' || (':' : Char) == '-')) = false := by
  decide

/-! ## Shape and hex-parsing helper lemmas -/

theorem macShape_eq_true {hp : Char → Bool} {l : List Char} :
    macShape hp l = true ↔
    ∃ a1 a2 a3 a4 a5 a6 a7 a8 a9 a10 a11 a12,
      l = [a1, a2, ':', a3, a4, ':', a5, a6, ':', a7, a8, ':', a9, a10, ':', a11, a12] ∧
      hp a1 = true ∧ hp a2 = true ∧ hp a3 = true ∧ hp a4 = true ∧
      hp a5 = true ∧ hp a6 = true ∧ hp a7 = true ∧ hp a8 = true ∧
      hp a9 = true ∧ hp a10 = true ∧ hp a11 = true ∧ hp a12 = true := by
  constructor
  · intro h
    unfold macShape at h
    split at h
    · next a1 a2 a3 a4 a5 a6 a7 a8 a9 a10 a11 a12 =>
      simp only [Bool.and_eq_true] at h
      obtain ⟨⟨⟨⟨⟨⟨⟨⟨⟨⟨⟨h1, h2⟩, h3⟩, h4⟩, h5⟩, h6⟩, h7⟩, h8⟩, h9⟩, h10⟩, h11⟩, h12⟩ := h
      exact ⟨a1, a2, a3, a4, a5, a6, a7, a8, a9, a10, a11, a12, rfl,
        h1, h2, h3, h4, h5, h6, h7, h8, h9, h10, h11, h12⟩
    · exact absurd h (by simp)
  · rintro ⟨a1, a2, a3, a4, a5, a6, a7, a8, a9, a10, a11, a12, rfl,
      h1, h2, h3, h4, h5, h6, h7, h8, h9, h10, h11, h12⟩
    simp [macShape, h1, h2, h3, h4, h5, h6, h7, h8, h9, h10, h11, h12]

theorem macShape_congr {hp hq : Char → Bool} (h : ∀ c, hp c = hq c)
    (l : List Char) : macShape hp l = macShape hq l := by
  unfold macShape
  split
  · simp [h]
  · rfl

theorem fromhexAux_cons {c d : Char} {rest : List Char} {hi lo : Nat}
    (hc : hexVal c = some hi) (hd : hexVal d = some lo) :
    fromhexAux (c :: d :: rest) =
      (fromhexAux rest).map (fun bs => (16 * hi + lo) :: bs) := by
  simp [fromhexAux, hc, hd]

theorem magicPacket_length (mb : List Nat) :
    (magicPacket mb).length = 6 + 16 * mb.length := by
  simp [magicPacket, List.length_flatten, List.map_replicate, List.sum_replicate,
    smul_eq_mul]
  omega

theorem toUpper_colon : Char.toUpper ':' = ':' := by decide

theorem pyStrip_getLast_not_space (l : List Char) {c : Char}
    (h : (pyStrip l).getLast? = some c) : isPySpace c = false := by
  unfold pyStrip at h
  rw [List.getLast?_reverse] at h
  have hh := List.head?_dropWhile_not isPySpace ((l.dropWhile isPySpace).reverse)
  rw [h] at hh
  exact hh

theorem pyUpper_macShape (l : List Char) :
    macShape isHexClass (pyUpper l) = macShape isHexClass l := by
  rw [Bool.eq_iff_iff, macShape_eq_true, macShape_eq_true]
  constructor
  · rintro ⟨c1, c2, c3, c4, c5, c6, c7, c8, c9, c10, c11, c12, heq,
      h1, h2, h3, h4, h5, h6, h7, h8, h9, h10, h11, h12⟩
    rcases l with _ | ⟨x1, _ | ⟨x2, _ | ⟨x3, _ | ⟨x4, _ | ⟨x5, _ | ⟨x6, _ | ⟨x7,
      _ | ⟨x8, _ | ⟨x9, _ | ⟨x10, _ | ⟨x11, _ | ⟨x12, _ | ⟨x13, _ | ⟨x14,
      _ | ⟨x15, _ | ⟨x16, _ | ⟨x17, t⟩⟩⟩⟩⟩⟩⟩⟩⟩⟩⟩⟩⟩⟩⟩⟩⟩ <;>
      simp only [pyUpper, List.map_cons, List.map_nil] at heq <;> simp at heq
    obtain ⟨e1, e2, e3, e4, e5, e6, e7, e8, e9, e10, e11, e12, e13, e14, e15,
      e16, e17, et⟩ := heq
    subst et
    have k3 : x3 = ':' := toUpper_eq_nonletter (by decide) e3
    have k6 : x6 = ':' := toUpper_eq_nonletter (by decide) e6
    have k9 : x9 = ':' := toUpper_eq_nonletter (by decide) e9
    have k12 : x12 = ':' := toUpper_eq_nonletter (by decide) e12
    have k15 : x15 = ':' := toUpper_eq_nonletter (by decide) e15
    subst k3 k6 k9 k12 k15
    have g1 : isHexClass x1 = true := by rw [← isHexClass_toUpper, e1]; exact h1
    have g2 : isHexClass x2 = true := by rw [← isHexClass_toUpper, e2]; exact h2
    have g4 : isHexClass x4 = true := by rw [← isHexClass_toUpper, e4]; exact h3
    have g5 : isHexClass x5 = true := by rw [← isHexClass_toUpper, e5]; exact h4
    have g7 : isHexClass x7 = true := by rw [← isHexClass_toUpper, e7]; exact h5
    have g8 : isHexClass x8 = true := by rw [← isHexClass_toUpper, e8]; exact h6
    have g10 : isHexClass x10 = true := by rw [← isHexClass_toUpper, e10]; exact h7
    have g11 : isHexClass x11 = true := by rw [← isHexClass_toUpper, e11]; exact h8
    have g13 : isHexClass x13 = true := by rw [← isHexClass_toUpper, e13]; exact h9
    have g14 : isHexClass x14 = true := by rw [← isHexClass_toUpper, e14]; exact h10
    have g16 : isHexClass x16 = true := by rw [← isHexClass_toUpper, e16]; exact h11
    have g17 : isHexClass x17 = true := by rw [← isHexClass_toUpper, e17]; exact h12
    exact ⟨x1, x2, x4, x5, x7, x8, x10, x11, x13, x14, x16, x17, rfl,
      g1, g2, g4, g5, g7, g8, g10, g11, g13, g14, g16, g17⟩
  · rintro ⟨c1, c2, c3, c4, c5, c6, c7, c8, c9, c10, c11, c12, rfl,
      h1, h2, h3, h4, h5, h6, h7, h8, h9, h10, h11, h12⟩
    refine ⟨Char.toUpper c1, Char.toUpper c2, Char.toUpper c3, Char.toUpper c4,
      Char.toUpper c5, Char.toUpper c6, Char.toUpper c7, Char.toUpper c8,
      Char.toUpper c9, Char.toUpper c10, Char.toUpper c11, Char.toUpper c12,
      ?_, ?_, ?_, ?_, ?_, ?_, ?_, ?_, ?_, ?_, ?_, ?_, ?_⟩
    · simp [pyUpper, toUpper_colon]
    all_goals rw [isHexClass_toUpper]
    · exact h1
    · exact h2
    · exact h3
    · exact h4
    · exact h5
    · exact h6
    · exact h7
    · exact h8
    · exact h9
    · exact h10
    · exact h11
    · exact h12

theorem macShape_upperHex_of_hexClass {m : List Char}
    (hnl : ∀ c ∈ m, ¬(97 ≤ c.toNat ∧ c.toNat ≤ 122))
    (h : macShape isHexClass m = true) : macShape isUpperHexDigit m = true := by
  rw [macShape_eq_true] at h
  obtain ⟨c1, c2, c3, c4, c5, c6, c7, c8, c9, c10, c11, c12, rfl,
    h1, h2, h3, h4, h5, h6, h7, h8, h9, h10, h11, h12⟩ := h
  rw [macShape_eq_true]
  refine ⟨c1, c2, c3, c4, c5, c6, c7, c8, c9, c10, c11, c12, rfl, ?_, ?_, ?_,
    ?_, ?_, ?_, ?_, ?_, ?_, ?_, ?_, ?_⟩
  · exact isUpperHexDigit_of_hexClass_not_lower h1 (hnl c1 (by simp))
  · exact isUpperHexDigit_of_hexClass_not_lower h2 (hnl c2 (by simp))
  · exact isUpperHexDigit_of_hexClass_not_lower h3 (hnl c3 (by simp))
  · exact isUpperHexDigit_of_hexClass_not_lower h4 (hnl c4 (by simp))
  · exact isUpperHexDigit_of_hexClass_not_lower h5 (hnl c5 (by simp))
  · exact isUpperHexDigit_of_hexClass_not_lower h6 (hnl c6 (by simp))
  · exact isUpperHexDigit_of_hexClass_not_lower h7 (hnl c7 (by simp))
  · exact isUpperHexDigit_of_hexClass_not_lower h8 (hnl c8 (by simp))
  · exact isUpperHexDigit_of_hexClass_not_lower h9 (hnl c9 (by simp))
  · exact isUpperHexDigit_of_hexClass_not_lower h10 (hnl c10 (by simp))
  · exact isUpperHexDigit_of_hexClass_not_lower h11 (hnl c11 (by simp))
  · exact isUpperHexDigit_of_hexClass_not_lower h12 (hnl c12 (by simp))

theorem canon_normalize {l : List Char} (h : isCanonList l = true) :
    ∃ mb : List Nat, fromhexAux (stripSep l) = some mb ∧ mb.length = 6 := by
  rw [isCanonList, macShape_eq_true] at h
  obtain ⟨a1, a2, a3, a4, a5, a6, a7, a8, a9, a10, a11, a12, rfl,
    h1, h2, h3, h4, h5, h6, h7, h8, h9, h10, h11, h12⟩ := h
  have hs : stripSep
      [a1, a2, ':', a3, a4, ':', a5, a6, ':', a7, a8, ':', a9, a10, ':', a11, a12] =
      [a1, a2, a3, a4, a5, a6, a7, a8, a9, a10, a11, a12] := by
    simp only [stripSep, List.filter_cons, hexDigit_keep h1, hexDigit_keep h2,
      hexDigit_keep h3, hexDigit_keep h4, hexDigit_keep h5, hexDigit_keep h6,
      hexDigit_keep h7, hexDigit_keep h8, hexDigit_keep h9, hexDigit_keep h10,
      hexDigit_keep h11, hexDigit_keep h12, colon_dropped, if_true, if_false,
      List.filter_nil]
    simp
  rw [hs]
  obtain ⟨v1, hv1⟩ := Option.isSome_iff_exists.mp h1
  obtain ⟨v2, hv2⟩ := Option.isSome_iff_exists.mp h2
  obtain ⟨v3, hv3⟩ := Option.isSome_iff_exists.mp h3
  obtain ⟨v4, hv4⟩ := Option.isSome_iff_exists.mp h4
  obtain ⟨v5, hv5⟩ := Option.isSome_iff_exists.mp h5
  obtain ⟨v6, hv6⟩ := Option.isSome_iff_exists.mp h6
  obtain ⟨v7, hv7⟩ := Option.isSome_iff_exists.mp h7
  obtain ⟨v8, hv8⟩ := Option.isSome_iff_exists.mp h8
  obtain ⟨v9, hv9⟩ := Option.isSome_iff_exists.mp h9
  obtain ⟨v10, hv10⟩ := Option.isSome_iff_exists.mp h10
  obtain ⟨v11, hv11⟩ := Option.isSome_iff_exists.mp h11
  obtain ⟨v12, hv12⟩ := Option.isSome_iff_exists.mp h12
  refine ⟨[16 * v1 + v2, 16 * v3 + v4, 16 * v5 + v6, 16 * v7 + v8,
    16 * v9 + v10, 16 * v11 + v12], ?_, rfl⟩
  rw [fromhexAux_cons hv1 hv2, fromhexAux_cons hv3 hv4, fromhexAux_cons hv5 hv6,
    fromhexAux_cons hv7 hv8, fromhexAux_cons hv9 hv10, fromhexAux_cons hv11 hv12]
  rfl

theorem flatten_replicate_block {mb : List Nat} (hlen : mb.length = 6) :
    ∀ (n i : Nat), i < n →
      (((List.replicate n mb).flatten).drop (6 * i)).take 6 = mb := by
  intro n
  induction n with
  | zero => intro i hi; exact absurd hi (Nat.not_lt_zero i)
  | succ n ih =>
    intro i hi
    rw [List.replicate_succ, List.flatten_cons]
    cases i with
    | zero =>
      simpa using List.take_left' hlen
    | succ i =>
      rw [show 6 * (i + 1) = mb.length + 6 * i by omega, ← List.drop_drop,
        List.drop_left' rfl]
      exact ih i (by omega)

/-! ## Claims -/

theorem fromhexAux_cons_space {c : Char} {rest : List Char}
    (hc : hexVal c = none) (hs : isPySpace c = true) :
    fromhexAux (c :: rest) = fromhexAux rest := by
  simp [fromhexAux, hc, hs]

theorem fromhexAux_cons_nonspace {c : Char} {rest : List Char}
    (hc : hexVal c = none) (hs : isPySpace c = false) :
    fromhexAux (c :: rest) = none := by
  simp [fromhexAux, hc, hs]

/-- What `bytes.fromhex` accepts is exactly hex byte-pair text with
whitespace between the pairs. -/
theorem fromhexAux_isSome_eq (l : List Char) :
    (fromhexAux l).isSome = hexPairsOk l := by
  have aux : ∀ (n : Nat) (l : List Char), l.length ≤ n →
      (fromhexAux l).isSome = hexPairsOk l := by
    intro n
    induction n with
    | zero =>
      intro l h
      cases l with
      | nil => rfl
      | cons c rest => simp at h
    | succ n ih =>
      intro l h
      match l with
      | [] => rfl
      | [c] =>
        cases hc : hexVal c with
        | some v => simp [fromhexAux, hexPairsOk, hc]
        | none =>
          cases hs : isPySpace c with
          | true => simp [fromhexAux, hexPairsOk, hc, hs]
          | false => simp [fromhexAux, hexPairsOk, hc, hs]
      | c :: d :: rest2 =>
        cases hc : hexVal c with
        | some v =>
          cases hd : hexVal d with
          | some w =>
            have hr := ih rest2 (by simp at h ⊢; omega)
            simp [fromhexAux, hexPairsOk, hc, hd, hr]
          | none => simp [fromhexAux, hexPairsOk, hc, hd]
        | none =>
          cases hs : isPySpace c with
          | true =>
            have hr := ih (d :: rest2) (by simp at h ⊢; omega)
            rw [fromhexAux_cons_space hc hs, hr]
            simp [hexPairsOk, hc, hs]
          | false =>
            rw [fromhexAux_cons_nonspace hc hs]
            simp [hexPairsOk, hc, hs]
  exact aux l.length l (Nat.le_refl _)

/-- C2, counterexample to the claim as stated: `"AA-BB-CC-DD-EE-FF"` is not
in canonical colon-separated form, yet the builder silently accepts it and
the payload goes out on the wire; the truncated `"AABB"` even builds (and
sends) a 38-byte payload instead of raising. -/
theorem claim_C2_counterexample :
    isCanonicalMac "AA-BB-CC-DD-EE-FF" = false ∧
    buildPacket "AA-BB-CC-DD-EE-FF" =
      some (magicPacket [170, 187, 204, 221, 238, 255]) ∧
    send_magic_packet (fun _ => true) "AA-BB-CC-DD-EE-FF" "255.255.255.255" =
      .ok (magicPacket [170, 187, 204, 221, 238, 255]) ∧
    send_magic_packet (fun _ => true) "AABB" "255.255.255.255" =
      .ok (magicPacket [170, 187]) ∧
    (magicPacket [170, 187]).length = 38 :=
  ⟨by decide, by decide, by rfl, by rfl, by decide⟩

/-- C2 (amended): the builder fails — raising `ValueError` before any socket
is touched, so nothing is sent — exactly when the input with `:` and `-`
deleted is not hex byte-pair text; every other input, canonical or not
(dash-separated, bare, or wrong-length hex), silently yields a payload of
`6 + 16·k` bytes for `k` decoded MAC bytes, which the dispatcher sends. -/
theorem claim_C2 (mac : String) :
    ((buildPacket mac).isSome = hexPairsOk (stripSep mac.data)) ∧
    (buildPacket mac = none → ∀ transportOk broadcast,
      send_magic_packet transportOk mac broadcast = .error "InvalidMAC") ∧
    (∀ mb, normalize_mac mac = some mb →
      buildPacket mac = some (magicPacket mb) ∧
      (magicPacket mb).length = 6 + 16 * mb.length) := by
  refine ⟨?_, ?_, ?_⟩
  · simp [buildPacket, normalize_mac, fromhexAux_isSome_eq]
  · intro h transportOk broadcast
    have h' : fromhexAux (stripSep mac.data) = none := by
      by_contra hne
      rcases Option.ne_none_iff_exists'.mp hne with ⟨v, hv⟩
      simp [buildPacket, normalize_mac, hv] at h
    simp [send_magic_packet, normalize_mac, h']
  · intro mb hmb
    exact ⟨by simp [buildPacket, hmb], magicPacket_length mb⟩

/-- Witness for C2 at concrete inputs: a non-hex MAC is rejected with
`InvalidMAC` and nothing sent; a bare 2-byte hex string is accepted with a
`6 + 16·2`-byte payload. -/
theorem claim_C2_witness :
    send_magic_packet (fun _ => true) "AA:BX:CC:DD:EE:FF" "255.255.255.255" =
      .error "InvalidMAC" ∧
    buildPacket "AABB" = some (magicPacket [170, 187]) ∧
    (magicPacket [170, 187]).length = 6 + 16 * 2 :=
  ⟨(claim_C2 "AA:BX:CC:DD:EE:FF").2.1 (by decide) (fun _ => true) "255.255.255.255",
   ((claim_C2 "AABB").2.2 [170, 187] (by decide)).1,
   ((claim_C2 "AABB").2.2 [170, 187] (by decide)).2⟩

/-- C3: for a canonical MAC the builder yields exactly the 102-byte payload:
6 decoded MAC bytes; 6 leading `0xFF` bytes; and each of the sixteen 6-byte
blocks at offsets 6, 12, …, 96 is a copy of the raw MAC bytes.  The builder
is a pure function of the MAC string, so the payload is determined by it. -/
theorem claim_C3 (mac : String) (h : isCanonicalMac mac = true) :
    ∃ mb, normalize_mac mac = some mb ∧ mb.length = 6 ∧
      buildPacket mac = some (magicPacket mb) ∧
      (magicPacket mb).length = 102 ∧
      (magicPacket mb).take 6 = List.replicate 6 255 ∧
      ∀ i < 16, ((magicPacket mb).drop (6 + 6 * i)).take 6 = mb := by
  obtain ⟨mb, hmb, hlen⟩ := canon_normalize h
  refine ⟨mb, hmb, hlen, ?_, ?_, ?_, ?_⟩
  · simp [buildPacket, normalize_mac, hmb]
  · rw [magicPacket_length, hlen]
  · simp only [magicPacket]
    exact List.take_left' (by simp)
  · intro i hi
    simp only [magicPacket]
    rw [show 6 + 6 * i = (List.replicate 6 (255 : Nat)).length + 6 * i by simp,
      ← List.drop_drop, List.drop_left' rfl]
    exact flatten_replicate_block hlen 16 i hi

/-- Witness for C3 at the spec's example MAC. -/
theorem claim_C3_witness :
    ∃ mb, normalize_mac "AA:BB:CC:DD:EE:FF" = some mb ∧ mb.length = 6 ∧
      buildPacket "AA:BB:CC:DD:EE:FF" = some (magicPacket mb) ∧
      (magicPacket mb).length = 102 ∧
      (magicPacket mb).take 6 = List.replicate 6 255 ∧
      ∀ i < 16, ((magicPacket mb).drop (6 + 6 * i)).take 6 = mb :=
  claim_C3 "AA:BB:CC:DD:EE:FF" (by decide)

/-- C1, counterexample to the claim as stated.  With two targets where the
first fails and the second would succeed, the `/wake` loop attempts only the
first target (not all of them) and reports failure, even though one target
would have succeeded. -/
theorem claim_C1_counterexample :
    ((fun _ b => b == "B") : String → String → Bool) "AA:BB:CC:DD:EE:FF" "B" = true ∧
    wake (fun _ b => b == "B") "AA:BB:CC:DD:EE:FF" (some (.inr ["A", "B"]))
      ["255.255.255.255"] = (["A"], .error "A") := by
  constructor
  · rfl
  · rfl

/-- C1 (amended): the on-demand wake loop attempts the targets in order only
up to the first failure.  It returns success, with every target in the sent
list, exactly when all sends succeed; at the first failing target it raises
to the caller at once, attempting none of the remaining targets. -/
theorem claim_C1 (send : String → String → Bool) (mac : String)
    (bs : List String) :
    ((∀ b ∈ bs, send mac b = true) → wakeLoop send mac bs = (bs, .ok bs)) ∧
    (∀ (pre : List String) (b : String) (post : List String),
      bs = pre ++ b :: post → (∀ x ∈ pre, send mac x = true) →
      send mac b = false →
      wakeLoop send mac bs = (pre ++ [b], .error b)) := by
  constructor
  · exact wakeLoop_ok_of_all send mac bs
  · intro pre b post hsplit hall hb
    rw [hsplit]
    exact wakeLoop_stops_at_first_failure send mac pre b post hall hb

/-- Witness for C1 at concrete inputs: an all-success run returns the full
sent list, and a run whose second target fails stops there with an error. -/
theorem claim_C1_witness :
    wakeLoop (fun _ _ => true) "AA:BB:CC:DD:EE:FF" ["10.0.0.255", "10.0.1.255"] =
      (["10.0.0.255", "10.0.1.255"], .ok ["10.0.0.255", "10.0.1.255"]) ∧
    wakeLoop (fun _ b => !(b == "bad")) "AA:BB:CC:DD:EE:FF" ["ok1", "bad", "ok2"] =
      (["ok1", "bad"], .error "bad") :=
  ⟨(claim_C1 (fun _ _ => true) "AA:BB:CC:DD:EE:FF" ["10.0.0.255", "10.0.1.255"]).1
      (by decide),
   (claim_C1 (fun _ b => !(b == "bad")) "AA:BB:CC:DD:EE:FF" ["ok1", "bad", "ok2"]).2
      ["ok1"] "bad" ["ok2"] rfl (by decide) (by decide)⟩

/-- C9: when the request's broadcast field is an explicit list containing only
empty strings (in particular the empty list), the resolved target list is
empty — the defaults are not substituted — so the wake loop attempts nothing
and returns success with an empty sent list. -/
theorem claim_C9 (send : String → String → Bool) (mac : String)
    (defaults : List String) (l : List String) (h : ∀ x ∈ l, x = "") :
    wake send mac (some (.inr l)) defaults = ([], .ok []) := by
  have hp : parse_broadcasts (some (.inr l)) defaults = [] := by
    simp only [parse_broadcasts]
    rw [List.filter_eq_nil_iff]
    intro x hx
    simp [h x hx]
  simp [wake, hp, wakeLoop]

/-- Witness for C9: an explicit empty list and a list of two empty strings
both produce a successful, empty dispatch even though a default is set. -/
theorem claim_C9_witness :
    wake (fun _ _ => false) "AA:BB:CC:DD:EE:FF" (some (.inr []))
      ["255.255.255.255"] = ([], .ok []) ∧
    wake (fun _ _ => false) "AA:BB:CC:DD:EE:FF" (some (.inr ["", ""]))
      ["255.255.255.255"] = ([], .ok []) :=
  ⟨claim_C9 (fun _ _ => false) "AA:BB:CC:DD:EE:FF" ["255.255.255.255"] [] (by decide),
   claim_C9 (fun _ _ => false) "AA:BB:CC:DD:EE:FF" ["255.255.255.255"] ["", ""]
      (by decide)⟩

/-- C6: a scheduled fire whose device id no longer resolves is a no-op: the
warning is logged, no send is attempted, no exception escapes (`_job` returns
normally), and the whole state — including the job table, so the job stays
armed — is unchanged. -/
theorem claim_C6 (send : String → String → Bool) (st : AppState) (j : Job)
    (h : getDevice st.db j.deviceId = none) :
    scheduledFire send st j = (st, { warnedMissing := true, attempts := [] }) := by
  simp [scheduledFire, _job, h]

/-- Witness for C6: firing the orphaned job of `exOrphanState` changes
nothing and logs the warning. -/
theorem claim_C6_witness :
    scheduledFire (fun _ _ => true) exOrphanState
      { scheduleId := 1, deviceId := 5, override := none } =
      (exOrphanState, { warnedMissing := true, attempts := [] }) :=
  claim_C6 (fun _ _ => true) exOrphanState
    { scheduleId := 1, deviceId := 5, override := none } (by decide)

/-- C7: during a scheduled fire every resolved target is attempted, in order,
each with its own transport outcome — a per-target failure never stops the
remaining targets and never escapes `_job` — and the fire leaves the state
(store and job table) unchanged: the job is neither disabled nor removed. -/
theorem claim_C7 (send : String → String → Bool) (st : AppState) (j : Job)
    (d : Device) (h : getDevice st.db j.deviceId = some d) :
    (scheduledFire send st j).1 = st ∧
    (scheduledFire send st j).2.attempts =
      (resolveBroadcasts j.override d.broadcasts).map (fun b => (b, send d.mac b)) := by
  constructor
  · rfl
  · simp [scheduledFire, _job, h, jobLoop_eq_map]

/-- Witness for C7: with a transport that fails on the device's (single)
broadcast, the fire still attempts it, records the failure, and leaves the
armed state `exState` untouched. -/
theorem claim_C7_witness :
    (scheduledFire (fun _ _ => false) exState
        { scheduleId := 1, deviceId := 1, override := none }).1 = exState ∧
    (scheduledFire (fun _ _ => false) exState
        { scheduleId := 1, deviceId := 1, override := none }).2.attempts =
      [("10.0.0.255", false)] :=
  claim_C7 (fun _ _ => false) exState
    { scheduleId := 1, deviceId := 1, override := none } exDevice (by decide)

/-- C4: the broadcast list a scheduled fire dispatches to is resolved at fire
time, just before sending: it is the job's captured override when that is a
present (non-empty) list — an empty or absent override is stored as NULL and
counts as absent — and otherwise it is the broadcast list of the device row
read from the store as it is at fire time, not a creation-time snapshot. -/
theorem claim_C4 (send : String → String → Bool) (dbAtFire : DB) (j : Job)
    (d : Device) (h : getDevice dbAtFire j.deviceId = some d) :
    (_job send dbAtFire j).attempts.map Prod.fst =
      (match j.override with
       | some l => if l.isEmpty then d.broadcasts else l
       | none => d.broadcasts) := by
  simp only [_job, h, jobLoop_eq_map, resolveBroadcasts]
  rw [List.map_map]
  have hid : (Prod.fst ∘ fun b => (b, send d.mac b)) = id := rfl
  rw [hid, List.map_id]

/-- Witness for C4: the same job fired against two different fire-time stores
follows each store's current device row; a non-empty override wins instead. -/
theorem claim_C4_witness :
    (_job (fun _ _ => true) exDB
        { scheduleId := 1, deviceId := 1, override := none }).attempts.map Prod.fst =
      ["10.0.0.255"] ∧
    (_job (fun _ _ => true)
        { exDB with devices := [(1, { exDevice with broadcasts := ["10.9.9.255"] })] }
        { scheduleId := 1, deviceId := 1, override := none }).attempts.map Prod.fst =
      ["10.9.9.255"] ∧
    (_job (fun _ _ => true) exDB
        { scheduleId := 1, deviceId := 1, override := some ["192.168.0.255"] }).attempts.map
        Prod.fst = ["192.168.0.255"] :=
  ⟨claim_C4 (fun _ _ => true) exDB
      { scheduleId := 1, deviceId := 1, override := none } exDevice (by decide),
   claim_C4 (fun _ _ => true)
      { exDB with devices := [(1, { exDevice with broadcasts := ["10.9.9.255"] })] }
      { scheduleId := 1, deviceId := 1, override := none }
      { exDevice with broadcasts := ["10.9.9.255"] } (by decide),
   claim_C4 (fun _ _ => true) exDB
      { scheduleId := 1, deviceId := 1, override := some ["192.168.0.255"] } exDevice
      (by decide)⟩

/-- C5: a schedule-creation request whose cron expression does not parse is
rejected synchronously: the state is returned unchanged (nothing persisted to
the store, no job armed in the job table) with an error; when the device
exists, that error is the 400 invalid-cron response, showing the expression
is parsed before the persistence step. -/
theorem claim_C5 {T : Type} (parseCron : String → Option T) (st : AppState)
    (now : String) (p : ScheduleCreate) (h : parseCron p.cron = none) :
    (add_schedule parseCron st now p).1 = st ∧
    (∃ e, (add_schedule parseCron st now p).2 = .error e) ∧
    (∀ d, getDevice st.db p.deviceId = some d →
      (add_schedule parseCron st now p).2 =
        .error (.badRequest "Invalid cron expression")) := by
  unfold add_schedule
  cases hd : getDevice st.db p.deviceId with
  | none => simp
  | some d => simp [h]

/-- Witness for C5: a malformed cron against `exState` (whose device 1
exists) yields the 400 error and leaves the state intact. -/
theorem claim_C5_witness :
    (add_schedule (fun _ => (none : Option Unit)) exState "t1"
        { deviceId := 1, cron := "not a cron", broadcasts := none }).1 = exState ∧
    (∃ e, (add_schedule (fun _ => (none : Option Unit)) exState "t1"
        { deviceId := 1, cron := "not a cron", broadcasts := none }).2 = .error e) ∧
    (∀ d, getDevice exState.db 1 = some d →
      (add_schedule (fun _ => (none : Option Unit)) exState "t1"
          { deviceId := 1, cron := "not a cron", broadcasts := none }).2 =
        .error (.badRequest "Invalid cron expression")) :=
  claim_C5 (fun _ => (none : Option Unit)) exState "t1"
    { deviceId := 1, cron := "not a cron", broadcasts := none } rfl

/-- C8: deleting an existing device succeeds, removes every schedule row owned
by it from the store, and removes each of those schedules' job-table entries:
no armed job with one of the cascaded schedule ids survives. -/
theorem claim_C8 (st : AppState) (deviceId : Nat)
    (h : st.db.devices.any (fun p => p.1 == deviceId) = true) :
    (delete_device st deviceId).2 = .ok () ∧
    (∀ q ∈ (delete_device st deviceId).1.db.schedules, q.2.deviceId ≠ deviceId) ∧
    (∀ sid ∈ list_schedule_ids_for_device st.db deviceId,
      ∀ j ∈ (delete_device st deviceId).1.jobs, j.scheduleId ≠ sid) := by
  have hres : delete_device st deviceId =
      ({ db := (dbDeleteDevice st.db deviceId).1,
         jobs := (list_schedule_ids_for_device st.db deviceId).foldl
           removeJobIfPresent st.jobs }, .ok ()) := by
    unfold delete_device
    simp [dbDeleteDevice, h]
  rw [hres]
  refine ⟨rfl, ?_, ?_⟩
  · intro q hq
    have hm := List.mem_filter.mp hq
    simpa using hm.2
  · intro sid hsid j hj
    have hm := mem_foldl_removeJobIfPresent _ _ _ hj
    have := hm.2 sid hsid
    simpa using this

/-- C10: the shared `validate_mac` of `WakeRequest` and `DeviceCreate`
accepts exactly the strings whose whitespace-trimmed form is six
colon-separated hex byte-pairs (either case), and every value it returns —
the MAC that gets stored in a device row or handed to the packet builder —
is the trimmed, uppercased input, in canonical uppercase colon form. -/
theorem claim_C10 (s : String) :
    ((validate_mac s).isSome = isCanonList (pyStrip s.data)) ∧
    (∀ v, validate_mac s = some v →
      v.data = pyUpper (pyStrip s.data) ∧ isCanonUpperList v.data = true) := by
  have hnl : (pyUpper (pyStrip s.data)).getLast? ≠ some '\n' := by
    intro h
    rw [pyUpper, List.getLast?_map] at h
    rcases hg : (pyStrip s.data).getLast? with _ | c
    · rw [hg] at h; simp at h
    · rw [hg] at h
      simp only [Option.map_some'] at h
      have hc : c = '\n' := toUpper_eq_nonletter (by decide) (by injection h)
      have hns := pyStrip_getLast_not_space s.data hg
      rw [hc] at hns
      exact absurd hns (by decide)
  have hmr : macRegexMatch (pyUpper (pyStrip s.data)) = isCanonList (pyStrip s.data) := by
    unfold macRegexMatch
    rw [if_neg hnl, Bool.or_false, macPattern, pyUpper_macShape]
    exact macShape_congr isHexClass_eq_isHexDigit _
  constructor
  · simp only [validate_mac, hmr]
    cases isCanonList (pyStrip s.data) <;> simp
  · intro v hv
    simp only [validate_mac] at hv
    by_cases hm : macRegexMatch (pyUpper (pyStrip s.data)) = true
    · rw [if_pos hm] at hv
      have hveq : v = String.mk (pyUpper (pyStrip s.data)) := by
        injection hv with h'; exact h'.symm
      subst hveq
      refine ⟨rfl, ?_⟩
      have hp : macPattern (pyUpper (pyStrip s.data)) = true := by
        rw [macRegexMatch, if_neg hnl, Bool.or_false] at hm
        exact hm
      have hmem : ∀ c ∈ pyUpper (pyStrip s.data),
          ¬(97 ≤ c.toNat ∧ c.toNat ≤ 122) := by
        intro c hc
        obtain ⟨x, _, rfl⟩ := List.mem_map.mp hc
        exact toUpper_not_lower x
      exact macShape_upperHex_of_hexClass hmem hp
    · rw [if_neg hm] at hv
      exact absurd hv (by simp)

/-- Witness for C10: a padded lowercase MAC is accepted and normalized to
canonical uppercase form; a dash-separated MAC is rejected by the schema. -/
theorem claim_C10_witness :
    ((validate_mac "  aa:bb:cc:dd:ee:ff ").isSome =
      isCanonList (pyStrip "  aa:bb:cc:dd:ee:ff ".data)) ∧
    ((validate_mac "AA-BB-CC-DD-EE-FF").isSome =
      isCanonList (pyStrip "AA-BB-CC-DD-EE-FF".data)) ∧
    ("AA:BB:CC:DD:EE:FF".data = pyUpper (pyStrip "  aa:bb:cc:dd:ee:ff ".data) ∧
      isCanonUpperList ("AA:BB:CC:DD:EE:FF" : String).data = true) :=
  ⟨(claim_C10 "  aa:bb:cc:dd:ee:ff ").1,
   (claim_C10 "AA-BB-CC-DD-EE-FF").1,
   (claim_C10 "  aa:bb:cc:dd:ee:ff ").2 "AA:BB:CC:DD:EE:FF" (by rfl)⟩

/-- Witness for C8: deleting device 1 of `exState` (two armed schedules)
succeeds and leaves no schedule row and no job-table entry for them. -/
theorem claim_C8_witness :
    (delete_device exState 1).2 = .ok () ∧
    (∀ q ∈ (delete_device exState 1).1.db.schedules, q.2.deviceId ≠ 1) ∧
    (∀ sid ∈ list_schedule_ids_for_device exState.db 1,
      ∀ j ∈ (delete_device exState 1).1.jobs, j.scheduleId ≠ sid) :=
  claim_C8 exState 1 (by decide)

end WOL
